import Mathlib

/-!
Shallow embedding of `src/weenix/kernel/fs/open.c` (the VFS file-open path:
`get_empty_fd` and `do_open`) together with theorems checking the
natural-language specification against it.

The two functions in `open.c` coordinate three resources: a slot in the
per-process descriptor table `p_files`, a reference-counted open-file object
(`file_t`, obtained from the external allocator `fget` and released with
`fput`), and a reference-counted vnode (obtained from the external path
resolver `open_namev` and released with `vput`).  The collaborators
(`fget`, `open_namev`) and the flag/errno constants live in headers outside
the given source; they are modelled from the spec's interface description
(section 6 of the spec) as an environment value handed to `do_open`, and the
constants carry their conventional Weenix values.  The embedding instruments
the outcome with the exact sequence of reference acquisitions and releases
(`fgets`/`fputs` for the file object, `vgets`/`vputs` for vnode references)
so that leak-freedom is statable.
-/

set_option maxRecDepth 8000

/-- Modelled from the spec: `NFILES` (capacity of the per-process descriptor
table, from the config header not in `src/`); conventional Weenix value. -/
def NFILES : Nat := 32

/-- Modelled from the spec: open-flag bit `O_WRONLY` (base intent write-only),
from `fs/fcntl.h` which is not in `src/`; conventional Weenix value. -/
def O_WRONLY : Nat := 1

/-- Modelled from the spec: open-flag bit `O_RDWR` (base intent read-write). -/
def O_RDWR : Nat := 2

/-- Modelled from the spec: open-flag modifier bit `O_CREAT`. -/
def O_CREAT : Nat := 0x100

/-- Modelled from the spec: open-flag modifier bit `O_TRUNC`. -/
def O_TRUNC : Nat := 0x200

/-- Modelled from the spec: open-flag modifier bit `O_APPEND`. -/
def O_APPEND : Nat := 0x400

/-- Modelled from the spec: stored-mode bit `FMODE_READ` (`fs/file.h`). -/
def FMODE_READ : Int := 1

/-- Modelled from the spec: stored-mode bit `FMODE_WRITE` (`fs/file.h`). -/
def FMODE_WRITE : Int := 2

/-- Modelled from the spec: stored-mode bit `FMODE_APPEND` (`fs/file.h`). -/
def FMODE_APPEND : Int := 4

/-- Modelled from the spec: errno `EINVAL` (invalid argument). -/
def EINVAL : Int := 22

/-- Modelled from the spec: errno `EMFILE` (too many open files). -/
def EMFILE : Int := 24

/-- Modelled from the spec: errno `ENOMEM` (out of memory). -/
def ENOMEM : Int := 12

/-- Modelled from the spec: errno `EISDIR` (is a directory). -/
def EISDIR : Int := 21

/-- Modelled from the spec: mode bit `S_IFDIR` marking a directory vnode
(`fs/stat.h`); conventional value. -/
def S_IFDIR : Nat := 0x4000

/-- Vnode, as far as `open.c` observes it: its `vn_mode` type bits (checked
against `S_IFDIR`) plus an identity tag so that distinct vnode references can
be told apart in the reference-count accounting. -/
structure vnode_t where
  vn_mode : Nat
  vn_id : Nat
deriving DecidableEq, Repr

/-- Open-file object: the three fields `do_open` writes (`f_mode`, `f_pos`,
`f_vnode`).  A freshly allocated `file_t` from `fget` carries arbitrary
(uninitialized) field values. -/
structure file_t where
  f_mode : Int
  f_pos : Int
  f_vnode : Option vnode_t
deriving DecidableEq, Repr

/-- Process state as observed by `open.c`: the descriptor table `p_files`
(a list of `NFILES` optional open-file objects; `none` is a NULL slot) and the
current working directory `p_cwd` passed to the resolver. -/
structure proc_t where
  p_files : List (Option file_t)
  p_cwd : vnode_t
deriving DecidableEq, Repr

/-- Modelled from the spec: behaviour of the external resolver `open_namev`
(not in `src/`).  `ok v` is a success (return 0) handing over one reference to
vnode `v`; `err ecode leaked` is a failure returning `-(1 + ecode)` (resolver
errors are negative errno values) which may still have produced a partially
constructed vnode reference `leaked` that the caller must release. -/
inductive open_namev_result where
  | ok (v : vnode_t)
  | err (ecode : Nat) (leaked : Option vnode_t)
deriving DecidableEq, Repr

/-- Modelled from the spec: the environment of external collaborators for one
`do_open` call — what `fget (-1)` returns (`none` is allocation failure,
`some f` a fresh file object with one reference) and what `open_namev` does. -/
structure OpenEnv where
  fget : Option file_t
  namev : open_namev_result
deriving DecidableEq, Repr

/-- Result of one `do_open` call: the C return value `ret`, the final process
state, and the instrumented reference-count ledger — `fgets` file-object
references acquired from `fget`, `fputs` calls to `fput`, `vgets` the vnode
references handed over by `open_namev`, `vputs` the vnodes passed to `vput`. -/
structure OpenOutcome where
  ret : Int
  proc : proc_t
  fgets : Nat
  fputs : Nat
  vgets : List vnode_t
  vputs : List vnode_t
deriving DecidableEq, Repr

/-- Loop of `get_empty_fd` (open.c lines 25-29): scan `fd = 0, 1, ...` below
`NFILES` and return the first `fd` whose slot `p_files[fd]` is NULL; fall
through to `-EMFILE` when the scan ends.  The bound `fd < NFILES` of the C
`for` loop is carried structurally as the number `fuel = NFILES - fd` of
iterations remaining. -/
def get_empty_fd_loop (p : proc_t) (fd : Nat) : Nat → Int
  | 0 => -EMFILE
  | fuel + 1 =>
    if p.p_files.getD fd none = none then (fd : Int)
    else get_empty_fd_loop p (fd + 1) fuel

/-- Embedding of `get_empty_fd` (open.c lines 21-35): lowest NULL slot index,
or `-EMFILE` when every slot is occupied.  The C function only reads the
table; correspondingly the embedding is a pure function of the process. -/
def get_empty_fd (p : proc_t) : Int :=
  get_empty_fd_loop p 0 NFILES

/-- Mode-derivation block of `do_open` (open.c lines 105-126), verbatim
structure: `mode` starts at the sentinel `-1`; inside the guard the chain
assigns `FMODE_READ` / `FMODE_WRITE` / `FMODE_READ|FMODE_WRITE`, then ORs in
`FMODE_APPEND` when the append bit was set. -/
def do_open_mode (wr rd rdwr append : Nat) : Int :=
  if wr ≠ 0 ∨ rd ≠ 0 ∨ rdwr ≠ 0 then
    let m : Int :=
      if rd ≠ 0 then FMODE_READ
      else if wr ≠ 0 then FMODE_WRITE
      else if rdwr ≠ 0 then Int.lor FMODE_READ FMODE_WRITE
      else -1
    if append ≠ 0 then Int.lor m FMODE_APPEND else m
  else -1

/-- Mode derived by `do_open` for a given `oflags`, with `wr`, `rd`, `rdwr`,
`append` decoded exactly as in open.c lines 77-84. -/
def derived_mode (oflags : Nat) : Int :=
  do_open_mode (oflags &&& O_WRONLY)
    (if oflags &&& O_WRONLY = 0 ∧ oflags &&& O_RDWR = 0 then 1 else 0)
    (oflags &&& O_RDWR) (oflags &&& O_APPEND)

/-- Embedding of `do_open` (open.c lines 74-161).  `env` fixes the behaviour
of the external collaborators for this call; `proc` is `curproc`.  Each return
site of the C function maps to one `OpenOutcome`, whose ledger fields record
the collaborator calls made on that path.  Mutations of the `file_t` through
the pointer stored in the table are reflected by re-`set`ting the slot, since
the slot and the local `file` alias the same object in C. -/
def do_open (oflags : Nat) (env : OpenEnv) (proc : proc_t) : OpenOutcome :=
  let wr := oflags &&& O_WRONLY
  let rdwr := oflags &&& O_RDWR
  let rd := if wr = 0 ∧ rdwr = 0 then 1 else 0
  let append := oflags &&& O_APPEND
  let _trunc := oflags &&& O_TRUNC
  let _creat := oflags &&& O_CREAT
  if wr ≠ 0 ∧ rdwr ≠ 0 then
    { ret := -EINVAL, proc := proc, fgets := 0, fputs := 0, vgets := [], vputs := [] }
  else
    let fd := get_empty_fd proc
    if fd = -EMFILE then
      { ret := -EMFILE, proc := proc, fgets := 0, fputs := 0, vgets := [], vputs := [] }
    else
      match env.fget with
      | none =>
        { ret := -ENOMEM, proc := proc, fgets := 0, fputs := 0, vgets := [], vputs := [] }
      | some file =>
        let fdn := fd.toNat
        let files1 := proc.p_files.set fdn (some file)
        let mode := do_open_mode wr rd rdwr append
        if mode = -1 then
          { ret := -EINVAL, proc := { proc with p_files := files1.set fdn none },
            fgets := 1, fputs := 1, vgets := [], vputs := [] }
        else
          let file1 := { file with f_mode := mode }
          let files2 := files1.set fdn (some file1)
          match env.namev with
          | .err ecode leaked =>
            { ret := -(1 + (ecode : Int)),
              proc := { proc with p_files := files2.set fdn none },
              fgets := 1, fputs := 1, vgets := leaked.toList, vputs := leaked.toList }
          | .ok res_vnode =>
            if res_vnode.vn_mode &&& S_IFDIR ≠ 0 ∧ mode ≠ FMODE_READ then
              { ret := -EISDIR,
                proc := { proc with p_files := files2.set fdn none },
                fgets := 1, fputs := 1, vgets := [res_vnode], vputs := [res_vnode] }
            else
              let file2 := { file1 with f_vnode := some res_vnode, f_pos := 0 }
              { ret := fd, proc := { proc with p_files := files2.set fdn (some file2) },
                fgets := 1, fputs := 0, vgets := [res_vnode], vputs := [] }

/-- Concrete regular-file vnode used by sanity checks and witnesses. -/
def vreg : vnode_t := { vn_mode := 0x8000, vn_id := 7 }

/-- Concrete directory vnode used by sanity checks and witnesses. -/
def vdir : vnode_t := { vn_mode := S_IFDIR, vn_id := 8 }

/-- Concrete uninitialized file object as handed out by `fget`. -/
def file0 : file_t := { f_mode := 0, f_pos := 0, f_vnode := none }

/-- Concrete process with an empty descriptor table. -/
def proc0 : proc_t := { p_files := List.replicate NFILES none, p_cwd := vreg }

/-- Concrete process whose slot 0 is occupied, so the lowest free slot is 1. -/
def proc1 : proc_t :=
  { p_files := (List.replicate NFILES none).set 0 (some file0), p_cwd := vreg }

/-- Concrete process whose descriptor table is completely full. -/
def procFull : proc_t :=
  { p_files := List.replicate NFILES (some file0), p_cwd := vreg }

/-- Concrete environment: allocation succeeds, path resolves to a regular
file. -/
def envReg : OpenEnv := { fget := some file0, namev := .ok vreg }

/-- Concrete environment: allocation succeeds, path resolves to a directory. -/
def envDir : OpenEnv := { fget := some file0, namev := .ok vdir }

/-- Concrete environment: allocation succeeds, the resolver fails with
code `-2` (`-ENOENT`) while leaking one partially produced vnode reference. -/
def envErr : OpenEnv := { fget := some file0, namev := .err 1 (some vreg) }

/-- Encoding of the spec's "valid single-intent flag combination": base intent
write-only (`w`), read-write (`rw`) or read-only (neither), optionally
(`a`) with append. -/
def flag_combo (w rw a : Bool) : Nat :=
  (cond w O_WRONLY 0) ||| (cond rw O_RDWR 0) ||| (cond a O_APPEND 0)

/-- Stored mode the spec demands for the single-intent combination
`flag_combo w rw a`: exactly the OR of the matching `FMODE_` bits. -/
def requested_mode (w rw a : Bool) : Int :=
  Int.lor (if rw then Int.lor FMODE_READ FMODE_WRITE
           else if w then FMODE_WRITE else FMODE_READ)
    (if a then FMODE_APPEND else 0)

/-- Full case analysis of the scan loop: starting at `fd` with `fuel`
iterations left, it either fails with `-EMFILE` because every scanned slot is
occupied, or returns the least NULL slot index in the scanned range. -/
lemma get_empty_fd_loop_spec (p : proc_t) :
    ∀ (fuel fd : Nat),
      (get_empty_fd_loop p fd fuel = -EMFILE ∧
        ∀ i, fd ≤ i → i < fd + fuel → p.p_files.getD i none ≠ none) ∨
      (∃ n : Nat, get_empty_fd_loop p fd fuel = (n : Int) ∧ fd ≤ n ∧ n < fd + fuel ∧
        p.p_files.getD n none = none ∧
        ∀ i, fd ≤ i → i < n → p.p_files.getD i none ≠ none) := by
  intro fuel
  induction fuel with
  | zero =>
    intro fd
    exact Or.inl ⟨rfl, fun i h1 h2 => absurd (Nat.lt_of_le_of_lt h1 h2) (by omega)⟩
  | succ k ih =>
    intro fd
    by_cases hc : p.p_files.getD fd none = none
    · exact Or.inr ⟨fd, by simp only [get_empty_fd_loop]; rw [if_pos hc], Nat.le_refl fd,
        by omega, hc,
        fun i h1 h2 => absurd (Nat.lt_of_le_of_lt h1 h2) (Nat.lt_irrefl fd)⟩
    · have hstep : get_empty_fd_loop p fd (k + 1) = get_empty_fd_loop p (fd + 1) k := by
        simp only [get_empty_fd_loop]; rw [if_neg hc]
      rcases ih (fd + 1) with ⟨heq, hall⟩ | ⟨n, heq, hle, hlt, hnone, hleast⟩
      · refine Or.inl ⟨hstep ▸ heq, fun i h1 h2 => ?_⟩
        rcases Nat.eq_or_lt_of_le h1 with rfl | h1'
        · exact hc
        · exact hall i h1' (by omega)
      · refine Or.inr ⟨n, hstep ▸ heq, by omega, by omega, hnone, fun i h1 h2 => ?_⟩
        rcases Nat.eq_or_lt_of_le h1 with rfl | h1'
        · exact hc
        · exact hleast i h1' h2

/-- Case analysis of `get_empty_fd` itself over the whole table. -/
lemma get_empty_fd_cases (p : proc_t) :
    (get_empty_fd p = -EMFILE ∧ ∀ i, i < NFILES → p.p_files.getD i none ≠ none) ∨
    (∃ n : Nat, get_empty_fd p = (n : Int) ∧ n < NFILES ∧
      p.p_files.getD n none = none ∧
      ∀ i, i < n → p.p_files.getD i none ≠ none) := by
  rcases get_empty_fd_loop_spec p NFILES 0 with ⟨heq, hall⟩ | ⟨n, heq, _, hlt, hnone, hleast⟩
  · exact Or.inl ⟨heq, fun i h => hall i (Nat.zero_le i) (by omega)⟩
  · exact Or.inr ⟨n, heq, by omega, hnone, fun i h => hleast i (Nat.zero_le i) h⟩

/-- When the allocator does not report exhaustion, its result is a NULL slot
index below `NFILES`. -/
lemma get_empty_fd_ne_emfile {p : proc_t} (h : get_empty_fd p ≠ -EMFILE) :
    ∃ n : Nat, get_empty_fd p = (n : Int) ∧ n < NFILES ∧
      p.p_files.getD n none = none := by
  rcases get_empty_fd_cases p with ⟨heq, _⟩ | ⟨n, heq, hlt, hnone, _⟩
  · exact absurd heq h
  · exact ⟨n, heq, hlt, hnone⟩

/-- Overwriting a slot that already holds NULL with NULL is a no-op. -/
lemma set_none_of_getD_none (l : List (Option file_t)) (n : Nat)
    (h : l.getD n none = none) : l.set n none = l := by
  rcases Nat.lt_or_ge n l.length with hlt | hge
  · apply List.ext_getElem?
    intro i
    rcases Decidable.em (i = n) with rfl | hne
    · rw [List.getElem?_set_self (by omega), List.getElem?_eq_getElem hlt]
      rw [List.getD_eq_getElem?_getD, List.getElem?_eq_getElem hlt] at h
      simp_all
    · rw [List.getElem?_set_ne (by omega)]
  · exact List.set_eq_of_length_le hge

/-- Mode derivation never leaves the `-1` sentinel: with `rd` computed as in
open.c lines 79-82, one of the three chain arms always fires (whatever `wr`
and `rdwr` are) and each produces a value different from `-1`. -/
lemma do_open_mode_ne_sentinel (wr rdwr append : Nat) :
    do_open_mode wr (if wr = 0 ∧ rdwr = 0 then 1 else 0) rdwr append ≠ -1 := by
  unfold do_open_mode
  by_cases hw : wr = 0 <;> by_cases hr : rdwr = 0 <;>
    simp [hw, hr] <;> split <;> decide

/-- Exact outcome of `do_open` when the flags and the first two acquisitions
succeed but `open_namev` fails: the resolver's code is returned unchanged, the
table is restored, the one file-object reference is released, and exactly the
vnode references the resolver produced are released. -/
lemma do_open_namev_err_eq (oflags : Nat) (env : OpenEnv) (proc : proc_t)
    (ecode : Nat) (leaked : Option vnode_t) (file : file_t)
    (hv : ¬(oflags &&& O_WRONLY ≠ 0 ∧ oflags &&& O_RDWR ≠ 0))
    (hfd : get_empty_fd proc ≠ -EMFILE)
    (hfget : env.fget = some file)
    (hnv : env.namev = .err ecode leaked) :
    do_open oflags env proc =
      { ret := -(1 + (ecode : Int)), proc := proc, fgets := 1, fputs := 1,
        vgets := leaked.toList, vputs := leaked.toList } := by
  obtain ⟨n, hn, hnlt, hfree⟩ := get_empty_fd_ne_emfile hfd
  simp only [do_open]
  rw [if_neg hv, if_neg hfd, hfget]
  simp only []
  rw [if_neg (do_open_mode_ne_sentinel _ _ _), hnv]
  simp only []
  rw [List.set_set, List.set_set, hn, Int.toNat_natCast,
    set_none_of_getD_none _ _ hfree]

/-- Exact outcome of `do_open` on the step-1 validation failure (both the
write-only and the read-write bit set). -/
lemma do_open_invalid_eq (oflags : Nat) (env : OpenEnv) (proc : proc_t)
    (hw : oflags &&& O_WRONLY ≠ 0) (hrw : oflags &&& O_RDWR ≠ 0) :
    do_open oflags env proc =
      { ret := -EINVAL, proc := proc, fgets := 0, fputs := 0,
        vgets := [], vputs := [] } := by
  simp only [do_open]
  rw [if_pos ⟨hw, hrw⟩]

/-- Exact outcome of `do_open` when the descriptor table is exhausted. -/
lemma do_open_emfile_eq (oflags : Nat) (env : OpenEnv) (proc : proc_t)
    (hv : ¬(oflags &&& O_WRONLY ≠ 0 ∧ oflags &&& O_RDWR ≠ 0))
    (hfd : get_empty_fd proc = -EMFILE) :
    do_open oflags env proc =
      { ret := -EMFILE, proc := proc, fgets := 0, fputs := 0,
        vgets := [], vputs := [] } := by
  simp only [do_open]
  rw [if_neg hv, if_pos hfd]

/-- Exact outcome of `do_open` when `fget` fails to allocate. -/
lemma do_open_enomem_eq (oflags : Nat) (env : OpenEnv) (proc : proc_t)
    (hv : ¬(oflags &&& O_WRONLY ≠ 0 ∧ oflags &&& O_RDWR ≠ 0))
    (hfd : get_empty_fd proc ≠ -EMFILE)
    (hfget : env.fget = none) :
    do_open oflags env proc =
      { ret := -ENOMEM, proc := proc, fgets := 0, fputs := 0,
        vgets := [], vputs := [] } := by
  simp only [do_open]
  rw [if_neg hv, if_neg hfd, hfget]

/-- Exact outcome of `do_open` on the directory/mode conflict: full unwind and
`-EISDIR`. -/
lemma do_open_isdir_eq (oflags : Nat) (env : OpenEnv) (proc : proc_t)
    (v : vnode_t) (file : file_t)
    (hv : ¬(oflags &&& O_WRONLY ≠ 0 ∧ oflags &&& O_RDWR ≠ 0))
    (hfd : get_empty_fd proc ≠ -EMFILE)
    (hfget : env.fget = some file)
    (hnv : env.namev = .ok v)
    (hdir : v.vn_mode &&& S_IFDIR ≠ 0)
    (hm : derived_mode oflags ≠ FMODE_READ) :
    do_open oflags env proc =
      { ret := -EISDIR, proc := proc, fgets := 1, fputs := 1,
        vgets := [v], vputs := [v] } := by
  obtain ⟨n, hn, hnlt, hfree⟩ := get_empty_fd_ne_emfile hfd
  unfold derived_mode at hm
  simp only [do_open]
  rw [if_neg hv, if_neg hfd, hfget]
  simp only []
  rw [if_neg (do_open_mode_ne_sentinel _ _ _), hnv]
  simp only []
  rw [if_pos ⟨hdir, hm⟩, List.set_set, List.set_set, hn, Int.toNat_natCast,
    set_none_of_getD_none _ _ hfree]

/-- Exact outcome of `do_open` on the success path: the returned descriptor is
the allocated slot `n`, which now holds the fully initialized file object
(derived mode, offset `0`, the resolved vnode); the file-object reference and
the vnode reference are retained, nothing is released. -/
lemma do_open_success_eq (oflags : Nat) (env : OpenEnv) (proc : proc_t)
    (v : vnode_t) (file : file_t) (n : Nat)
    (hv : ¬(oflags &&& O_WRONLY ≠ 0 ∧ oflags &&& O_RDWR ≠ 0))
    (hn : get_empty_fd proc = (n : Int))
    (hfget : env.fget = some file)
    (hnv : env.namev = .ok v)
    (hnd : ¬(v.vn_mode &&& S_IFDIR ≠ 0 ∧ derived_mode oflags ≠ FMODE_READ)) :
    do_open oflags env proc =
      { ret := (n : Int),
        proc := { proc with p_files := (proc.p_files.set n
          (some { f_mode := derived_mode oflags, f_pos := 0, f_vnode := some v })) },
        fgets := 1, fputs := 0, vgets := [v], vputs := [] } := by
  have hfd : get_empty_fd proc ≠ -EMFILE := by rw [hn]; unfold EMFILE; omega
  unfold derived_mode at hnd ⊢
  simp only [do_open]
  rw [if_neg hv, if_neg hfd, hfget]
  simp only []
  rw [if_neg (do_open_mode_ne_sentinel _ _ _), hnv]
  simp only []
  rw [if_neg hnd, List.set_set, List.set_set, hn, Int.toNat_natCast]

/-- C1: for every call to `do_open` that returns an error, the net effect on
process state is as if the call never happened: the process (in particular the
descriptor table, which never retains a half-initialized entry) equals its
pre-call value, every file-object reference acquired from `fget` has been
released by `fput`, and every vnode reference produced by the resolver has
been released by `vput`. -/
theorem do_open_error_no_effect (oflags : Nat) (env : OpenEnv) (proc : proc_t)
    (hret : (do_open oflags env proc).ret < 0) :
    (do_open oflags env proc).proc = proc ∧
    (do_open oflags env proc).fputs = (do_open oflags env proc).fgets ∧
    (do_open oflags env proc).vputs = (do_open oflags env proc).vgets := by
  by_cases hv : oflags &&& O_WRONLY ≠ 0 ∧ oflags &&& O_RDWR ≠ 0
  · rw [do_open_invalid_eq oflags env proc hv.1 hv.2]
    exact ⟨rfl, rfl, rfl⟩
  · by_cases hfd : get_empty_fd proc = -EMFILE
    · rw [do_open_emfile_eq oflags env proc hv hfd]
      exact ⟨rfl, rfl, rfl⟩
    · rcases hfget : env.fget with _ | file
      · rw [do_open_enomem_eq oflags env proc hv hfd hfget]
        exact ⟨rfl, rfl, rfl⟩
      · rcases hnv : env.namev with v | ⟨ecode, leaked⟩
        · by_cases hdc : v.vn_mode &&& S_IFDIR ≠ 0 ∧ derived_mode oflags ≠ FMODE_READ
          · rw [do_open_isdir_eq oflags env proc v file hv hfd hfget hnv hdc.1 hdc.2]
            exact ⟨rfl, rfl, rfl⟩
          · obtain ⟨n, hn, _, _⟩ := get_empty_fd_ne_emfile hfd
            rw [do_open_success_eq oflags env proc v file n hv hn hfget hnv hdc] at hret
            exact absurd hret (by simp)
        · rw [do_open_namev_err_eq oflags env proc ecode leaked file hv hfd hfget hnv]
          exact ⟨rfl, rfl, rfl⟩

/-- Witness for C1 at `oflags = 3` (write-only and read-write both set, an
error return). -/
theorem do_open_error_no_effect_witness :
    (do_open 3 envReg proc0).proc = proc0 ∧
    (do_open 3 envReg proc0).fputs = (do_open 3 envReg proc0).fgets ∧
    (do_open 3 envReg proc0).vputs = (do_open 3 envReg proc0).vgets :=
  do_open_error_no_effect 3 envReg proc0 (by decide)

/-- C4: for every flags value with both the write-only bit and the read-write
bit set, `do_open` fails with `-EINVAL` before acquiring any resource: the
process is unchanged, no file object is ever allocated (`fgets = 0`) and no
vnode reference is produced. -/
theorem do_open_wronly_rdwr_einval (oflags : Nat) (env : OpenEnv) (proc : proc_t)
    (hw : oflags &&& O_WRONLY ≠ 0) (hrw : oflags &&& O_RDWR ≠ 0) :
    do_open oflags env proc =
      { ret := -EINVAL, proc := proc, fgets := 0, fputs := 0,
        vgets := [], vputs := [] } :=
  do_open_invalid_eq oflags env proc hw hrw

/-- Witness for C4 at `oflags = O_WRONLY ||| O_RDWR ||| O_APPEND`. -/
theorem do_open_wronly_rdwr_einval_witness :
    do_open 0x403 envDir proc1 =
      { ret := -EINVAL, proc := proc1, fgets := 0, fputs := 0,
        vgets := [], vputs := [] } :=
  do_open_wronly_rdwr_einval 0x403 envDir proc1 (by decide) (by decide)

/-- C6: whenever `open_namev` fails (returning the negative code
`-(1 + ecode)`, possibly leaking a partially produced vnode reference),
`do_open` returns exactly that code unchanged, restores the descriptor table,
releases the leaked vnode reference (and nothing else) via `vput`, and
releases the file-object reference via `fput`. -/
theorem do_open_propagates_namev_error (oflags : Nat) (env : OpenEnv)
    (proc : proc_t) (ecode : Nat) (leaked : Option vnode_t) (file : file_t)
    (hv : ¬(oflags &&& O_WRONLY ≠ 0 ∧ oflags &&& O_RDWR ≠ 0))
    (hfd : get_empty_fd proc ≠ -EMFILE)
    (hfget : env.fget = some file)
    (hnv : env.namev = .err ecode leaked) :
    do_open oflags env proc =
      { ret := -(1 + (ecode : Int)), proc := proc, fgets := 1, fputs := 1,
        vgets := leaked.toList, vputs := leaked.toList } :=
  do_open_namev_err_eq oflags env proc ecode leaked file hv hfd hfget hnv

/-- Witness for C6: resolver failure `-2` with one leaked vnode reference. -/
theorem do_open_propagates_namev_error_witness :
    do_open O_WRONLY envErr proc0 =
      { ret := -2, proc := proc0, fgets := 1, fputs := 1,
        vgets := [vreg], vputs := [vreg] } :=
  do_open_propagates_namev_error O_WRONLY envErr proc0 1 (some vreg) file0
    (by decide) (by decide) rfl rfl

/-- C7: for every flags value with neither the write-only bit nor the
read-write bit set, the mode `do_open` derives is read-only: `FMODE_READ`,
OR'd with `FMODE_APPEND` exactly when the append bit is set. -/
theorem derived_mode_zero_base_is_read (oflags : Nat)
    (hw : oflags &&& O_WRONLY = 0) (hrw : oflags &&& O_RDWR = 0) :
    derived_mode oflags =
      if oflags &&& O_APPEND ≠ 0 then Int.lor FMODE_READ FMODE_APPEND
      else FMODE_READ := by
  unfold derived_mode do_open_mode
  simp [hw, hrw]

/-- Witness for C7 at `oflags = O_APPEND` (read-only plus append). -/
theorem derived_mode_zero_base_is_read_witness :
    derived_mode O_APPEND =
      if O_APPEND &&& O_APPEND ≠ 0 then Int.lor FMODE_READ FMODE_APPEND
      else FMODE_READ :=
  derived_mode_zero_base_is_read O_APPEND (by decide) (by decide)

/-- C8: for every flags value that passes the step-1 validation, the
defensive no-base-intent branch of the mode derivation is unreachable: the
derived mode is never the `-1` sentinel the branch tests for. -/
theorem derived_mode_sentinel_unreachable (oflags : Nat)
    (_hv : ¬(oflags &&& O_WRONLY ≠ 0 ∧ oflags &&& O_RDWR ≠ 0)) :
    derived_mode oflags ≠ -1 := by
  unfold derived_mode
  exact do_open_mode_ne_sentinel _ _ _

/-- Witness for C8 at `oflags = O_WRONLY`. -/
theorem derived_mode_sentinel_unreachable_witness :
    derived_mode O_WRONLY ≠ -1 :=
  derived_mode_sentinel_unreachable O_WRONLY (by decide)

/-- C9: `get_empty_fd` returns either `-EMFILE` or an index in
`[0, NFILES)`; hence the `Nat` index `do_open` uses after checking the result
against `-EMFILE` is within the table's bounds. -/
theorem get_empty_fd_result_bounds (p : proc_t) :
    get_empty_fd p = -EMFILE ∨
    (0 ≤ get_empty_fd p ∧ get_empty_fd p < (NFILES : Int) ∧
      (get_empty_fd p).toNat < NFILES) := by
  rcases get_empty_fd_cases p with ⟨heq, _⟩ | ⟨n, heq, hlt, _, _⟩
  · exact Or.inl heq
  · refine Or.inr ⟨?_, ?_, ?_⟩ <;> rw [heq]
    · exact Int.natCast_nonneg n
    · exact_mod_cast hlt
    · rw [Int.toNat_natCast]; exact hlt

/-- When `get_empty_fd` returns the natural index `n`, that index is below
`NFILES` and names a NULL slot. -/
lemma get_empty_fd_nat_result {proc : proc_t} {n : Nat}
    (hn : get_empty_fd proc = (n : Int)) :
    n < NFILES ∧ proc.p_files.getD n none = none := by
  have hfd : get_empty_fd proc ≠ -EMFILE := by rw [hn]; unfold EMFILE; omega
  obtain ⟨n', hn', hlt', hfree'⟩ := get_empty_fd_ne_emfile hfd
  have heq : n = n' := by rw [hn] at hn'; exact_mod_cast hn'
  subst heq
  exact ⟨hlt', hfree'⟩

/-- C5: `get_empty_fd` returns the numerically lowest NULL slot index when one
exists (it is a pure scan, so the table is untouched by construction), and on
a completely occupied table it returns `-EMFILE`, upon which `do_open` (with
flags passing validation) fails with `-EMFILE` leaving the process
unchanged. -/
theorem get_empty_fd_lowest_and_exhaustion (oflags : Nat) (env : OpenEnv)
    (proc : proc_t) :
    (∀ n : Nat, n < NFILES → proc.p_files.getD n none = none →
      (∀ m : Nat, m < n → proc.p_files.getD m none ≠ none) →
      get_empty_fd proc = (n : Int)) ∧
    ((∀ i : Nat, i < NFILES → proc.p_files.getD i none ≠ none) →
      get_empty_fd proc = -EMFILE ∧
      (¬(oflags &&& O_WRONLY ≠ 0 ∧ oflags &&& O_RDWR ≠ 0) →
        do_open oflags env proc =
          { ret := -EMFILE, proc := proc, fgets := 0, fputs := 0,
            vgets := [], vputs := [] })) := by
  constructor
  · intro n hlt hfree hleast
    rcases get_empty_fd_cases proc with ⟨_, hall⟩ | ⟨n', heq', hlt', hnone', hleast'⟩
    · exact absurd hfree (hall n hlt)
    · have hsame : n' = n := by
        rcases Nat.lt_trichotomy n' n with h | h | h
        · exact absurd hnone' (hleast n' h)
        · exact h
        · exact absurd hfree (hleast' n h)
      rw [heq', hsame]
  · intro hall
    rcases get_empty_fd_cases proc with ⟨heq, _⟩ | ⟨n', _, hlt', hnone', _⟩
    · exact ⟨heq, fun hv => do_open_emfile_eq oflags env proc hv heq⟩
    · exact absurd hnone' (hall n' hlt')

/-- Witness for C5: lowest free slot of `proc1` is 1; on the full table the
allocator reports `-EMFILE`. -/
theorem get_empty_fd_lowest_and_exhaustion_witness :
    get_empty_fd proc1 = ((1 : Nat) : Int) ∧ get_empty_fd procFull = -EMFILE :=
  ⟨(get_empty_fd_lowest_and_exhaustion 0 envReg proc1).1 1 (by decide) (by decide)
      (by decide),
   ((get_empty_fd_lowest_and_exhaustion 0 envReg procFull).2 (by decide)).1⟩

/-- C2: for every valid single-intent flag combination (read-only, write-only
or read-write, each optionally with append) on a path resolving to an
existing regular file (with a free descriptor slot and a successful
allocation), `do_open` returns the allocated descriptor, and that table slot
holds a file object whose `f_mode` is exactly the requested OR of `FMODE_`
bits, whose `f_vnode` is the resolved vnode, and whose `f_pos` is `0`. -/
theorem do_open_single_intent_success (w rw a : Bool) (env : OpenEnv)
    (proc : proc_t) (v : vnode_t) (file : file_t) (n : Nat)
    (hwrw : ¬(w = true ∧ rw = true))
    (hlen : proc.p_files.length = NFILES)
    (hn : get_empty_fd proc = (n : Int))
    (hfget : env.fget = some file)
    (hnv : env.namev = .ok v)
    (hreg : v.vn_mode &&& S_IFDIR = 0) :
    (do_open (flag_combo w rw a) env proc).ret = (n : Int) ∧
    (do_open (flag_combo w rw a) env proc).proc.p_files.getD n none =
      some { f_mode := requested_mode w rw a, f_pos := 0, f_vnode := some v } := by
  have hv : ¬(flag_combo w rw a &&& O_WRONLY ≠ 0 ∧
      flag_combo w rw a &&& O_RDWR ≠ 0) := by
    cases w <;> cases rw <;> cases a <;>
      first
        | decide
        | exact absurd ⟨rfl, rfl⟩ hwrw
  have hnd : ¬(v.vn_mode &&& S_IFDIR ≠ 0 ∧
      derived_mode (flag_combo w rw a) ≠ FMODE_READ) := by
    rintro ⟨h1, _⟩
    exact h1 hreg
  have hmode : derived_mode (flag_combo w rw a) = requested_mode w rw a := by
    cases w <;> cases rw <;> cases a <;>
      first
        | decide
        | exact absurd ⟨rfl, rfl⟩ hwrw
  obtain ⟨hnlt, _⟩ := get_empty_fd_nat_result hn
  have hl : n < proc.p_files.length := by rw [hlen]; exact hnlt
  rw [do_open_success_eq (flag_combo w rw a) env proc v file n hv hn hfget hnv hnd]
  refine ⟨rfl, ?_⟩
  rw [hmode, List.getD_eq_getElem?_getD, List.getElem?_set_self hl]
  rfl

/-- Witness for C2: read-write open of a regular file through the empty
table. -/
theorem do_open_single_intent_success_witness :
    (do_open (flag_combo false true false) envReg proc0).ret = ((0 : Nat) : Int) ∧
    (do_open (flag_combo false true false) envReg proc0).proc.p_files.getD 0 none =
      some { f_mode := requested_mode false true false, f_pos := 0,
             f_vnode := some vreg } :=
  do_open_single_intent_success false true false envReg proc0 vreg file0 0
    (by decide) (by decide) (by decide) rfl rfl (by decide)

/-- C3 counterexample: `oflags = O_APPEND` derives mode
`FMODE_READ | FMODE_APPEND`, which contains no write access, yet opening a
directory with it fails with `-EISDIR` rather than being permitted to
succeed, because the code compares the mode against exactly `FMODE_READ`. -/
theorem do_open_readonly_append_dir_rejected :
    vdir.vn_mode &&& S_IFDIR ≠ 0 ∧
    Int.land (derived_mode O_APPEND) FMODE_WRITE = 0 ∧
    (do_open O_APPEND envDir proc0).ret = -EISDIR := by
  decide

/-- C3 (amended): on a path resolving to a directory, `do_open` fails with
`-EISDIR` after full unwind exactly when the derived mode differs from
`FMODE_READ` — in particular whenever the mode includes write access, but
also for a read-only-with-append request — and it is permitted to succeed
only when the derived mode is exactly `FMODE_READ`. -/
theorem do_open_dir_eisdir_iff_mode_not_exactly_read (oflags : Nat)
    (env : OpenEnv) (proc : proc_t) (v : vnode_t) (file : file_t)
    (hv : ¬(oflags &&& O_WRONLY ≠ 0 ∧ oflags &&& O_RDWR ≠ 0))
    (hfd : get_empty_fd proc ≠ -EMFILE)
    (hfget : env.fget = some file)
    (hnv : env.namev = .ok v)
    (hdir : v.vn_mode &&& S_IFDIR ≠ 0) :
    (Int.land (derived_mode oflags) FMODE_WRITE ≠ 0 →
      derived_mode oflags ≠ FMODE_READ) ∧
    (derived_mode oflags ≠ FMODE_READ →
      do_open oflags env proc =
        { ret := -EISDIR, proc := proc, fgets := 1, fputs := 1,
          vgets := [v], vputs := [v] }) ∧
    (derived_mode oflags = FMODE_READ →
      0 ≤ (do_open oflags env proc).ret) := by
  refine ⟨?_, ?_, ?_⟩
  · intro hw heq
    rw [heq] at hw
    exact hw (by decide)
  · intro hm
    exact do_open_isdir_eq oflags env proc v file hv hfd hfget hnv hdir hm
  · intro hm
    obtain ⟨n, hn, _, _⟩ := get_empty_fd_ne_emfile hfd
    rw [do_open_success_eq oflags env proc v file n hv hn hfget hnv
      (by rintro ⟨_, h⟩; exact h hm)]
    exact Int.natCast_nonneg n

/-- Witness for C3's amended theorem: write-only open of a directory fails
with `-EISDIR` and unwinds fully. -/
theorem do_open_dir_eisdir_witness :
    do_open O_WRONLY envDir proc0 =
      { ret := -EISDIR, proc := proc0, fgets := 1, fputs := 1,
        vgets := [vdir], vputs := [vdir] } :=
  (do_open_dir_eisdir_iff_mode_not_exactly_read O_WRONLY envDir proc0 vdir file0
    (by decide) (by decide) rfl rfl (by decide)).2.1 (by decide)

/-- C10: every descriptor-table slot other than the one returned by
`get_empty_fd` is left unchanged by `do_open`, as are the process's other
fields (its current working directory); on success the returned descriptor is
that slot, which now holds the newly initialized file object (derived mode,
offset `0`, the resolved vnode). -/
theorem do_open_frame (oflags : Nat) (env : OpenEnv) (proc : proc_t)
    (hlen : proc.p_files.length = NFILES) :
    (do_open oflags env proc).proc.p_cwd = proc.p_cwd ∧
    (∀ i : Nat, i ≠ (get_empty_fd proc).toNat →
      (do_open oflags env proc).proc.p_files.getD i none =
        proc.p_files.getD i none) ∧
    (0 ≤ (do_open oflags env proc).ret →
      ∃ v : vnode_t, env.namev = .ok v ∧
        (do_open oflags env proc).ret = get_empty_fd proc ∧
        (do_open oflags env proc).proc.p_files.getD
            (get_empty_fd proc).toNat none =
          some { f_mode := derived_mode oflags, f_pos := 0,
                 f_vnode := some v }) := by
  by_cases hv : oflags &&& O_WRONLY ≠ 0 ∧ oflags &&& O_RDWR ≠ 0
  · rw [do_open_invalid_eq oflags env proc hv.1 hv.2]
    refine ⟨rfl, fun i _ => rfl, ?_⟩
    intro h
    dsimp only at h
    exact absurd h (by decide)
  · by_cases hfd : get_empty_fd proc = -EMFILE
    · rw [do_open_emfile_eq oflags env proc hv hfd]
      refine ⟨rfl, fun i _ => rfl, ?_⟩
      intro h
      dsimp only at h
      exact absurd h (by decide)
    · rcases hfget : env.fget with _ | file
      · rw [do_open_enomem_eq oflags env proc hv hfd hfget]
        refine ⟨rfl, fun i _ => rfl, ?_⟩
        intro h
        dsimp only at h
        exact absurd h (by decide)
      · rcases hnv : env.namev with v | ⟨ecode, leaked⟩
        · by_cases hdc : v.vn_mode &&& S_IFDIR ≠ 0 ∧
            derived_mode oflags ≠ FMODE_READ
          · rw [do_open_isdir_eq oflags env proc v file hv hfd hfget hnv
              hdc.1 hdc.2]
            refine ⟨rfl, fun i _ => rfl, ?_⟩
            intro h
            dsimp only at h
            exact absurd h (by decide)
          · obtain ⟨n, hn, _, _⟩ := get_empty_fd_ne_emfile hfd
            obtain ⟨hnlt, _⟩ := get_empty_fd_nat_result hn
            have hl : n < proc.p_files.length := by rw [hlen]; exact hnlt
            rw [do_open_success_eq oflags env proc v file n hv hn hfget hnv hdc]
            refine ⟨rfl, ?_, ?_⟩
            · intro i hi
              have hi' : i ≠ n := by rw [hn, Int.toNat_natCast] at hi; exact hi
              rw [List.getD_eq_getElem?_getD, List.getD_eq_getElem?_getD,
                List.getElem?_set_ne (by omega)]
            · intro _
              refine ⟨v, rfl, hn.symm, ?_⟩
              rw [hn, Int.toNat_natCast, List.getD_eq_getElem?_getD,
                List.getElem?_set_self hl]
              rfl
        · rw [do_open_namev_err_eq oflags env proc ecode leaked file hv hfd
            hfget hnv]
          refine ⟨rfl, fun i _ => rfl, ?_⟩
          intro h
          dsimp only at h
          exact absurd h (by omega)

/-- Witness for C10: reading through `proc1` leaves slot 5 and the working
directory untouched. -/
theorem do_open_frame_witness :
    (do_open 0 envReg proc1).proc.p_cwd = proc1.p_cwd ∧
    (do_open 0 envReg proc1).proc.p_files.getD 5 none =
      proc1.p_files.getD 5 none :=
  ⟨(do_open_frame 0 envReg proc1 (by decide)).1,
   (do_open_frame 0 envReg proc1 (by decide)).2.1 5 (by decide)⟩

